import Mathlib

/-!
Shallow embedding of the raster-analysis pipeline in `src/DANA-EO.ipynb`
(flood analysis over Valencia using Sentinel-2 data on Google Earth Engine).

Modelling conventions:
* A raster band over the region of interest is a function `Fin n → Option ℚ`:
  `none` is a masked (invalid) pixel, `some v` a valid sample.  All bands of
  one raster share the grid, which the common index type `Fin n` enforces.
* Earth Engine per-pixel arithmetic (`add`, `subtract`, `multiply`, `divide`)
  is strict in masks: the result pixel is masked when either operand is
  masked.  `ee.Image.divide` is documented to return 0 for division by zero,
  which coincides with division on `ℚ` (`x / 0 = 0`).
* `reduceRegion` with a `minMax` reducer is the min/max over the valid pixels
  of the band inside the region; it yields no value (`none`) when the region
  has no valid pixel, matching the null entry Earth Engine returns.
* `image.reduce(ee.Reducer.mean())` is the per-pixel mean over the unmasked
  bands of the image; the output pixel is masked when every band is masked.
-/

namespace DANA

/-- A single raster band over an `n`-pixel grid; `none` marks a masked pixel. -/
abbrev Band (n : ℕ) := Fin n → Option ℚ

/-- A multi-band raster: named bands over a shared grid.  (The notebook's
images; the data-model invariant is that names are unique.) -/
abbrev Image (n : ℕ) := List (String × Band n)

/-- Mask-strict per-pixel addition (`ee.Image.add`). -/
def addQ : Option ℚ → Option ℚ → Option ℚ
  | some a, some b => some (a + b)
  | _, _ => none

/-- Mask-strict per-pixel subtraction (`ee.Image.subtract`). -/
def subQ : Option ℚ → Option ℚ → Option ℚ
  | some a, some b => some (a - b)
  | _, _ => none

/-- Per-pixel mean over the unmasked values among the given band samples
(`ee.Reducer.mean` applied across bands); masked when all are masked. -/
def meanPix (vs : List (Option ℚ)) : Option ℚ :=
  if (vs.filterMap id).isEmpty then none
  else some ((vs.filterMap id).sum / (vs.filterMap id).length)

/-- `image.select(name)`: the band of the given name.  The source raises at
materialization when the band is missing; here a missing band is a fully
masked band, and every use below is at a name the image carries. -/
def selectBand {n : ℕ} (img : Image n) (nm : String) : Band n :=
  match img.find? (fun b => b.1 == nm) with
  | some b => b.2
  | none => fun _ => none

/-- `image.reduce(ee.Reducer.mean())`: the per-pixel mean across the image's
bands. -/
def bandsMean {n : ℕ} (img : Image n) : Band n :=
  fun i => meanPix (img.map (fun b => b.2 i))

/-- Minimum over the valid pixels of a band (`ee.Reducer.minMax`, min part);
`none` when the band has no valid pixel in the region. -/
def bandMin {n : ℕ} (b : Band n) : Option ℚ :=
  ((List.finRange n).filterMap b).foldr
    (fun v acc => match acc with
      | none => some v
      | some w => some (min v w)) none

/-- Maximum over the valid pixels of a band (`ee.Reducer.minMax`, max part). -/
def bandMax {n : ℕ} (b : Band n) : Option ℚ :=
  ((List.finRange n).filterMap b).foldr
    (fun v acc => match acc with
      | none => some v
      | some w => some (max v w)) none

/-! ## DEM-based flood risk classification

From `main` in the notebook:
```
low_risk = dem.gt(50)
medium_risk = dem.lte(50).And(dem.gt(10))
high_risk = dem.lte(10)
flood_risk_vis = low_risk.multiply(1).add(medium_risk.multiply(2)).add(high_risk.multiply(3))
```
Per pixel this is a pure function of the elevation value. -/

/-- `dem.gt(50)`: 1 where elevation exceeds 50, else 0. -/
def low_risk (e : ℚ) : ℕ := if 50 < e then 1 else 0

/-- `dem.lte(50).And(dem.gt(10))`: 1 where 10 < elevation ≤ 50, else 0. -/
def medium_risk (e : ℚ) : ℕ := if e ≤ 50 ∧ 10 < e then 1 else 0

/-- `dem.lte(10)`: 1 where elevation ≤ 10, else 0. -/
def high_risk (e : ℚ) : ℕ := if e ≤ 10 then 1 else 0

/-- The per-pixel flood-risk code `low*1 + medium*2 + high*3`. -/
def flood_risk_vis (e : ℚ) : ℕ :=
  low_risk e * 1 + medium_risk e * 2 + high_risk e * 3

/-! ## Area aggregation (`calculate_area`)

`calculate_area` operates on one band materialized over the region together
with each pixel's ground area (`ee.Image.pixelArea`).  We model that input as
a list of pixels carrying a sample value, a validity flag and a ground area
in m².  The code:
```
significant_area = image.updateMask(image.gt(threshold))
pixel_area = significant_area.multiply(ee.Image.pixelArea())
area_stats = pixel_area.reduceRegion(reducer=ee.Reducer.sum(), ...)
...
if band_name not in area_stats_dict: return 0
area_km2 = area_stats_dict[band_name] / 1e6
```
`reduceRegion` sums valid pixels; its result carries no entry for the band
when the region holds no valid pixel, which the code's membership test turns
into the scalar 0. -/

/-- One materialized pixel of a single-band image over the region: the sample
value, whether the pixel is valid (unmasked), and its ground area in m². -/
structure Pixel where
  value : ℚ
  valid : Bool
  area : ℚ
deriving DecidableEq, Repr

/-- Sum of an image's valid pixel values (`ee.Reducer.sum` over the region);
`none` models the band being absent from the `reduceRegion` result, which
happens when no pixel is valid. -/
def reduceRegionSum (img : List Pixel) : Option ℚ :=
  if img.all (fun p => !p.valid) then none
  else some (img.foldr (fun p acc => if p.valid then p.value + acc else acc) 0)

/-- `calculate_area(image, roi, threshold)` from the notebook: mask pixels at
or below the threshold, multiply by per-pixel area, sum over the region and
convert m² to km²; 0 when the band is absent from the aggregation result. -/
def calculate_area (image : List Pixel) (threshold : ℚ) : ℚ :=
  let significant_area :=
    image.map (fun p => { p with valid := p.valid && decide (threshold < p.value) })
  let pixel_area := significant_area.map (fun p => { p with value := p.value * p.area })
  match reduceRegionSum pixel_area with
  | none => 0
  | some s => s / 1000000

/-- The contribution `calculate_area` lets one pixel make at a threshold:
value times ground area, in km², when the pixel is valid and strictly above
the threshold; nothing otherwise. -/
def pixelContribution (t : ℚ) (p : Pixel) : ℚ :=
  if p.valid = true ∧ t < p.value then p.value * p.area / 1000000 else 0

lemma foldr_validSum_of_all_invalid (l : List Pixel)
    (h : l.all (fun p => !p.valid) = true) :
    l.foldr (fun p acc => if p.valid then p.value + acc else acc) 0 = 0 := by
  induction l with
  | nil => rfl
  | cons p ps ih =>
    simp only [List.all_cons, Bool.and_eq_true, Bool.not_eq_true'] at h
    simp [h.1, ih (by simpa using h.2)]

lemma calculate_area_eq_validSum_div (image : List Pixel) (t : ℚ) :
    calculate_area image t =
      (((image.map (fun p => { p with valid := p.valid && decide (t < p.value) })).map
        (fun p => { p with value := p.value * p.area })).foldr
          (fun p acc => if p.valid then p.value + acc else acc) 0) / 1000000 := by
  unfold calculate_area reduceRegionSum
  dsimp only
  by_cases h : ((image.map (fun p => { p with valid := p.valid && decide (t < p.value) })).map
      (fun p => { p with value := p.value * p.area })).all (fun p => !p.valid)
  · simp only [h, if_true]
    rw [foldr_validSum_of_all_invalid _ h]
    simp
  · rw [if_neg h]

lemma validSum_maskmult_eq (t : ℚ) (l : List Pixel) :
    ((l.map (fun p => { p with valid := p.valid && decide (t < p.value) })).map
      (fun p => { p with value := p.value * p.area })).foldr
        (fun p acc => if p.valid then p.value + acc else acc) 0
    = (l.map (pixelContribution t)).sum * 1000000 := by
  induction l with
  | nil => simp
  | cons p ps ih =>
    simp only [List.map_cons, List.foldr_cons, List.sum_cons, ih]
    by_cases hv : p.valid = true
    · by_cases ht : t < p.value
      · simp [pixelContribution, hv, ht, add_mul, div_mul_cancel₀]
      · simp [pixelContribution, hv, ht]
    · simp [pixelContribution, hv]

lemma calculate_area_eq_sum (image : List Pixel) (t : ℚ) :
    calculate_area image t = (image.map (pixelContribution t)).sum := by
  rw [calculate_area_eq_validSum_div, validSum_maskmult_eq]
  field_simp

lemma flood_risk_vis_eq (e : ℚ) :
    flood_risk_vis e = if 50 < e then 1 else if 10 < e then 2 else 3 := by
  unfold flood_risk_vis low_risk medium_risk high_risk
  rcases lt_or_le 50 e with h50 | h50
  · have h10 : (10 : ℚ) < e := lt_trans (by norm_num) h50
    simp [h50, not_le.mpr h50, not_le.mpr h10]
  · rcases lt_or_le 10 e with h10 | h10
    · simp [not_lt.mpr h50, h50, h10, not_le.mpr h10]
    · simp [not_lt.mpr h50, not_lt.mpr h10, h10]

/-- C4: the DEM risk classifier assigns code 1 iff elevation exceeds 50, code
2 iff elevation is in (10, 50], and code 3 iff elevation is at most 10; in
particular 60 ↦ 1, 50 ↦ 2 and 5 ↦ 3. -/
theorem C4_flood_risk_classification (e : ℚ) :
    (flood_risk_vis e = 1 ↔ 50 < e) ∧
    (flood_risk_vis e = 2 ↔ 10 < e ∧ e ≤ 50) ∧
    (flood_risk_vis e = 3 ↔ e ≤ 10) ∧
    flood_risk_vis 60 = 1 ∧ flood_risk_vis 50 = 2 ∧ flood_risk_vis 5 = 3 := by
  have hv60 : flood_risk_vis 60 = 1 := by rw [flood_risk_vis_eq]; norm_num
  have hv50 : flood_risk_vis 50 = 2 := by rw [flood_risk_vis_eq]; norm_num
  have hv5 : flood_risk_vis 5 = 3 := by rw [flood_risk_vis_eq]; norm_num
  refine ⟨?_, ?_, ?_, hv60, hv50, hv5⟩ <;> rw [flood_risk_vis_eq]
  · rcases lt_or_le 50 e with h | h
    · rw [if_pos h]
      exact iff_of_true rfl h
    · rcases lt_or_le 10 e with h2 | h2
      · rw [if_neg (not_lt.mpr h), if_pos h2]
        exact iff_of_false (by norm_num) (not_lt.mpr h)
      · rw [if_neg (not_lt.mpr h), if_neg (not_lt.mpr h2)]
        exact iff_of_false (by norm_num) (not_lt.mpr h)
  · rcases lt_or_le 50 e with h | h
    · rw [if_pos h]
      exact iff_of_false (by norm_num) (fun hc => absurd hc.2 (not_le.mpr h))
    · rcases lt_or_le 10 e with h2 | h2
      · rw [if_neg (not_lt.mpr h), if_pos h2]
        exact iff_of_true rfl ⟨h2, h⟩
      · rw [if_neg (not_lt.mpr h), if_neg (not_lt.mpr h2)]
        exact iff_of_false (by norm_num) (fun hc => absurd hc.1 (not_lt.mpr h2))
  · rcases lt_or_le 50 e with h | h
    · rw [if_pos h]
      exact iff_of_false (by norm_num) (not_le.mpr (lt_trans (by norm_num) h))
    · rcases lt_or_le 10 e with h2 | h2
      · rw [if_neg (not_lt.mpr h), if_pos h2]
        exact iff_of_false (by norm_num) (not_le.mpr h2)
      · rw [if_neg (not_lt.mpr h), if_neg (not_lt.mpr h2)]
        exact iff_of_true rfl h2

/-- C5: `calculate_area` is exactly the sum of per-pixel contributions, where
a pixel contributes nothing when masked or at/below the threshold (even if
its underlying value exceeds the threshold), and a valid pixel strictly above
the threshold contributes its value times its ground area, converted to km². -/
theorem C5_area_aggregator_masking (image : List Pixel) (t : ℚ) :
    calculate_area image t = (image.map (pixelContribution t)).sum ∧
    (∀ p : Pixel, p.valid = false → pixelContribution t p = 0) ∧
    (∀ p : Pixel, p.value ≤ t → pixelContribution t p = 0) ∧
    (∀ p : Pixel, p.valid = true → t < p.value →
      pixelContribution t p = p.value * p.area / 1000000) := by
  refine ⟨calculate_area_eq_sum image t, ?_, ?_, ?_⟩
  · intro p hp
    unfold pixelContribution
    rw [if_neg]
    rintro ⟨hv, -⟩
    rw [hp] at hv
    exact Bool.false_ne_true hv
  · intro p hp
    unfold pixelContribution
    rw [if_neg]
    rintro ⟨-, hlt⟩
    exact absurd hp (not_le.mpr hlt)
  · intro p hv hlt
    unfold pixelContribution
    rw [if_pos ⟨hv, hlt⟩]

/-- Witness for C5 at a concrete three-pixel image: a masked pixel with value
9 and a valid pixel at value −1 ≤ 0 contribute nothing, the valid pixel at 3
contributes 3·1000 m² in km². -/
theorem C5_area_aggregator_masking_witness :
    calculate_area [⟨3, true, 1000⟩, ⟨9, false, 1000⟩, ⟨-1, true, 1000⟩] 0 =
      ([⟨3, true, 1000⟩, ⟨9, false, 1000⟩, ⟨-1, true, 1000⟩].map
        (pixelContribution 0)).sum ∧
    pixelContribution 0 ⟨9, false, 1000⟩ = 0 ∧
    pixelContribution 0 ⟨-1, true, 1000⟩ = 0 ∧
    pixelContribution 0 ⟨3, true, 1000⟩ = 3 * 1000 / 1000000 := by
  have h := C5_area_aggregator_masking
    [⟨3, true, 1000⟩, ⟨9, false, 1000⟩, ⟨-1, true, 1000⟩] 0
  exact ⟨h.1, h.2.1 _ rfl, h.2.2.1 _ (by norm_num), h.2.2.2 _ rfl (by norm_num)⟩

/-- C6: when no valid pixel lies strictly above the threshold, the band is
absent from the aggregation result (`reduceRegionSum` yields nothing) and
`calculate_area` returns 0 rather than failing; thresholding above every
value (the `threshold = +∞` reading) is the special case. -/
theorem C6_area_aggregator_absent_band (image : List Pixel) (t : ℚ)
    (h : ∀ p ∈ image, p.valid = true → p.value ≤ t) :
    reduceRegionSum
      ((image.map (fun p => { p with valid := p.valid && decide (t < p.value) })).map
        (fun p => { p with value := p.value * p.area })) = none ∧
    calculate_area image t = 0 := by
  have hall : ((image.map (fun p => { p with valid := p.valid && decide (t < p.value) })).map
      (fun p => { p with value := p.value * p.area })).all (fun p => !p.valid) = true := by
    rw [List.all_eq_true]
    intro q hq
    simp only [List.map_map, List.mem_map, Function.comp] at hq
    rcases hq with ⟨p, hp, rfl⟩
    simp only [Bool.not_eq_true']
    cases hv : p.valid with
    | false => simp [hv]
    | true =>
      have := h p hp hv
      simp [hv, not_lt.mpr this]
  have hnone : reduceRegionSum
      ((image.map (fun p => { p with valid := p.valid && decide (t < p.value) })).map
        (fun p => { p with value := p.value * p.area })) = none := by
    unfold reduceRegionSum
    rw [if_pos hall]
  refine ⟨hnone, ?_⟩
  unfold calculate_area
  dsimp only
  rw [hnone]

/-- Witness for C6: a two-pixel image where the only valid pixel sits at the
threshold; the aggregation result is empty and the area is 0. -/
theorem C6_area_aggregator_absent_band_witness :
    reduceRegionSum
      ((([⟨7, true, 4⟩, ⟨100, false, 4⟩] : List Pixel).map
          (fun p => { p with valid := p.valid && decide ((100 : ℚ) < p.value) })).map
        (fun p => { p with value := p.value * p.area })) = none ∧
    calculate_area [⟨7, true, 4⟩, ⟨100, false, 4⟩] 100 = 0 :=
  C6_area_aggregator_absent_band [⟨7, true, 4⟩, ⟨100, false, 4⟩] 100 (by decide)

/-! ## Normalized-difference indices (`calculate_indices`)

`image.normalizedDifference([a, b])` is the Earth Engine primitive computing
`(a − b) / (a + b)` per pixel; its output pixel is masked where an input is
masked or the denominator `a + b` is zero. -/

/-- Per-pixel normalized difference `(a − b)/(a + b)`; masked when either
input is masked or the sum is zero. -/
def ndPix : Option ℚ → Option ℚ → Option ℚ
  | some a, some b => if a + b = 0 then none else some ((a - b) / (a + b))
  | _, _ => none

/-- `image.normalizedDifference([a, b])` applied to two bands of a raster. -/
def normalizedDifference {n : ℕ} (a b : Band n) : Band n :=
  fun i => ndPix (a i) (b i)

/-- `calculate_indices(image)`: appends NDVI = nd(B8, B4), NDWI = nd(B3, B8)
and NDBI = nd(B11, B8) to the image (`addBands`). -/
def calculate_indices {n : ℕ} (image : Image n) : Image n :=
  image ++
    [("NDVI", normalizedDifference (selectBand image "B8") (selectBand image "B4")),
     ("NDWI", normalizedDifference (selectBand image "B3") (selectBand image "B8")),
     ("NDBI", normalizedDifference (selectBand image "B11") (selectBand image "B8"))]

/-- C7: the index engine is antisymmetric wherever both computations are
defined — a defined pixel of `nd(A,B)` is the negation of the corresponding
pixel of `nd(B,A)` — and a pixel whose band sum is zero is masked rather
than yielding a value. -/
theorem C7_normalized_difference_antisymmetry {n : ℕ} (A B : Band n) (i : Fin n) :
    (∀ v : ℚ, normalizedDifference A B i = some v →
      normalizedDifference B A i = some (-v)) ∧
    (∀ a b : ℚ, A i = some a → B i = some b → a + b = 0 →
      normalizedDifference A B i = none) := by
  constructor
  · intro v hv
    cases hA : A i with
    | none => simp [normalizedDifference, ndPix, hA] at hv
    | some a =>
      cases hB : B i with
      | none => simp [normalizedDifference, ndPix, hA, hB] at hv
      | some b =>
        simp only [normalizedDifference, ndPix, hA, hB] at hv
        by_cases hs : a + b = 0
        · rw [if_pos hs] at hv
          exact absurd hv (by simp)
        · rw [if_neg hs] at hv
          have hs' : b + a ≠ 0 := by rw [add_comm]; exact hs
          simp only [normalizedDifference, ndPix, hA, hB]
          rw [if_neg hs']
          have hv' := Option.some.inj hv
          rw [← hv', add_comm b a, ← neg_div, neg_sub]
  · intro a b hA hB hs
    simp only [normalizedDifference, ndPix, hA, hB]
    rw [if_pos hs]

/-- Witness for C7 on one-pixel bands: `nd(3,1) = 1/2`, so `nd(1,3) = −1/2`,
and a pixel with band sum zero (`1 + (−1)`) is masked. -/
theorem C7_normalized_difference_antisymmetry_witness :
    normalizedDifference (fun _ => some 3) (fun _ => some 1) (0 : Fin 1) = some (1/2) ∧
    normalizedDifference (fun _ => some 1) (fun _ => some 3) (0 : Fin 1) = some (-(1/2)) ∧
    normalizedDifference (fun _ => some 1) (fun _ => some (-1)) (0 : Fin 1) = none := by
  have hAB : normalizedDifference (fun _ => some 3) (fun _ => some 1) (0 : Fin 1)
      = some (1/2) := by
    show ndPix (some 3) (some 1) = some (1/2)
    simp only [ndPix]
    norm_num
  refine ⟨hAB, ?_, ?_⟩
  · exact (C7_normalized_difference_antisymmetry
      (fun _ => some 3) (fun _ => some 1) 0).1 (1/2) hAB
  · exact (C7_normalized_difference_antisymmetry
      (fun _ => some 1) (fun _ => some (-1)) 0).2 1 (-1) rfl rfl (by norm_num)


/-! ## Mean-injection pansharpening (`pansharpen_simple_mean`)

```
multispectral_mean = multispectral.reduce(ee.Reducer.mean())
pansharpened_bands = [
    multispectral.select([band]).add(panchromatic.subtract(multispectral_mean))
    for band in bands
]
return ee.Image.cat(pansharpened_bands).rename(bands)
```
-/

/-- `pansharpen_simple_mean(multispectral, panchromatic, bands)`: one output
band per requested name, `original + (panchromatic − mean across the
multispectral bands)`, with the output renamed to the requested names. -/
def pansharpen_simple_mean {n : ℕ} (multispectral : Image n) (panchromatic : Band n)
    (bands : List String) : Image n :=
  let multispectral_mean := bandsMean multispectral
  bands.map (fun band =>
    (band, fun i => addQ (selectBand multispectral band i)
      (subQ (panchromatic i) (multispectral_mean i))))

lemma addQ_some_right (x : Option ℚ) (c : ℚ) :
    addQ x (some c) = x.map (fun v => v + c) := by
  cases x <;> rfl

lemma find?_name_eq_of_nodup {n : ℕ} (img : Image n)
    (hnd : (img.map Prod.fst).Nodup) (b : String × Band n) (hb : b ∈ img) :
    img.find? (fun q => q.1 == b.1) = some b := by
  induction img with
  | nil => cases hb
  | cons hd tl ih =>
    have hnd' := List.nodup_cons.mp (show (hd.1 :: tl.map Prod.fst).Nodup from hnd)
    rcases List.mem_cons.mp hb with rfl | htl
    · exact List.find?_cons_of_pos _ (by simp)
    · have hne : ¬ (hd.1 == b.1) = true := by
        rw [beq_iff_eq]
        intro he
        exact hnd'.1 (he ▸ List.mem_map.mpr ⟨b, htl, rfl⟩)
      rw [List.find?_cons_of_neg (p := fun q => q.1 == b.1) (a := hd) tl hne]
      exact ih hnd'.2 htl

lemma selectBand_of_nodup {n : ℕ} (img : Image n)
    (hnd : (img.map Prod.fst).Nodup) (b : String × Band n) (hb : b ∈ img) :
    selectBand img b.1 = b.2 := by
  unfold selectBand
  rw [find?_name_eq_of_nodup img hnd b hb]

lemma bandsMean_none_forall {n : ℕ} (img : Image n) (i : Fin n)
    (h : bandsMean img i = none) : ∀ b ∈ img, b.2 i = none := by
  intro b hb
  cases hc : b.2 i with
  | none => rfl
  | some v =>
    exfalso
    unfold bandsMean meanPix at h
    have hmem : v ∈ (img.map (fun q => q.2 i)).filterMap id :=
      List.mem_filterMap.mpr ⟨some v, List.mem_map.mpr ⟨b, hb, hc⟩, rfl⟩
    by_cases he : ((img.map (fun q => q.2 i)).filterMap id).isEmpty
    · rw [List.isEmpty_iff] at he
      rw [he] at hmem
      exact List.not_mem_nil v hmem
    · rw [if_neg he] at h
      exact absurd h (by simp)

/-- C8: when the reference band equals the per-pixel mean of the multiband
input and the requested band list is the input's own band list, the fusion
sharpener returns the input unchanged — same band names, count and values. -/
theorem C8_pansharpen_mean_identity {n : ℕ} (multispectral : Image n)
    (panchromatic : Band n) (hnd : (multispectral.map Prod.fst).Nodup)
    (href : ∀ i, panchromatic i = bandsMean multispectral i) :
    pansharpen_simple_mean multispectral panchromatic (multispectral.map Prod.fst)
      = multispectral := by
  unfold pansharpen_simple_mean
  dsimp only
  rw [List.map_map]
  conv_rhs => rw [← List.map_id multispectral]
  apply List.map_congr_left
  intro b hb
  show (b.1, fun i => addQ (selectBand multispectral b.1 i)
      (subQ (panchromatic i) (bandsMean multispectral i))) = b
  have hsel : selectBand multispectral b.1 = b.2 :=
    selectBand_of_nodup multispectral hnd b hb
  have hfun : (fun i => addQ (selectBand multispectral b.1 i)
      (subQ (panchromatic i) (bandsMean multispectral i))) = b.2 := by
    funext i
    rw [hsel, href i]
    cases hm : bandsMean multispectral i with
    | none =>
      rw [bandsMean_none_forall multispectral i hm b hb]
      rfl
    | some m =>
      show addQ (b.2 i) (subQ (some m) (some m)) = b.2 i
      have hz : subQ (some m) (some m) = some 0 := by
        show some (m - m) = some 0
        rw [sub_self]
      rw [hz, addQ_some_right]
      cases b.2 i <;> simp
  rw [hfun]

/-- A concrete two-band, one-pixel raster used to instantiate the
pansharpening theorems: B4 = 2 and B3 = 4, so the band mean is 3. -/
def pansharpenExample : Image 1 :=
  [("B4", fun _ => some 2), ("B3", fun _ => some 4)]

/-- Witness for C8: with reference 3 = mean(2, 4), sharpening returns the
two-band raster unchanged. -/
theorem C8_pansharpen_mean_identity_witness :
    pansharpen_simple_mean pansharpenExample (fun _ => some 3)
      (pansharpenExample.map Prod.fst) = pansharpenExample :=
  C8_pansharpen_mean_identity pansharpenExample (fun _ => some 3)
    (by decide)
    (by
      intro i
      show (some 3 : Option ℚ) = meanPix [some 2, some 4]
      simp [meanPix]
      norm_num)

lemma filterMap_id_optionMap (g : ℚ → ℚ) (l : List (Option ℚ)) :
    (l.map (Option.map g)).filterMap id = (l.filterMap id).map g := by
  induction l with
  | nil => rfl
  | cons x xs ih => cases x <;> simp [ih]

lemma sum_map_add_const (l : List ℚ) (c : ℚ) :
    (l.map (fun v => v + c)).sum = l.sum + l.length * c := by
  induction l with
  | nil => simp
  | cons x xs ih =>
    simp only [List.map_cons, List.sum_cons, List.length_cons, ih]
    push_cast
    ring

lemma meanPix_shift (vs : List (Option ℚ)) (c : ℚ) (mv : ℚ)
    (h : meanPix vs = some mv) :
    meanPix (vs.map (Option.map (fun v => v + c))) = some (mv + c) := by
  unfold meanPix at *
  rw [filterMap_id_optionMap]
  by_cases he : (vs.filterMap id).isEmpty
  · rw [if_pos he] at h
    exact absurd h (by simp)
  · rw [if_neg he] at h
    have hmv := Option.some.inj h
    have hne : vs.filterMap id ≠ [] := by
      intro hc
      rw [List.isEmpty_iff] at he
      exact he hc
    have hlen : ((vs.filterMap id).length : ℚ) ≠ 0 := by
      have hpos : 0 < (vs.filterMap id).length := List.length_pos.mpr hne
      exact_mod_cast Nat.pos_iff_ne_zero.mp hpos
    have hm : ¬ ((vs.filterMap id).map (fun v => v + c)).isEmpty = true := by
      rw [List.isEmpty_iff, List.map_eq_nil_iff]
      exact hne
    rw [if_neg hm, sum_map_add_const, List.length_map, ← hmv]
    congr 1
    field_simp
    ring

/-- C9: when the requested band list is the input's full band list, the
per-pixel mean across the sharpened output bands reproduces the reference
band exactly, at every pixel where the reference is valid and the input has
at least one valid band. -/
theorem C9_pansharpen_output_mean_eq_reference {n : ℕ} (multispectral : Image n)
    (panchromatic : Band n) (hnd : (multispectral.map Prod.fst).Nodup)
    (i : Fin n) (pv : ℚ) (hp : panchromatic i = some pv)
    (b₀ : String × Band n) (hb₀ : b₀ ∈ multispectral) (v₀ : ℚ) (hv₀ : b₀.2 i = some v₀) :
    bandsMean (pansharpen_simple_mean multispectral panchromatic
      (multispectral.map Prod.fst)) i = panchromatic i := by
  have hmean : ∃ mv, bandsMean multispectral i = some mv := by
    unfold bandsMean meanPix
    have hmem : v₀ ∈ (multispectral.map (fun q => q.2 i)).filterMap id :=
      List.mem_filterMap.mpr ⟨some v₀, List.mem_map.mpr ⟨b₀, hb₀, hv₀⟩, rfl⟩
    have hne : ¬ ((multispectral.map (fun q => q.2 i)).filterMap id).isEmpty = true := by
      rw [List.isEmpty_iff]
      intro hc
      rw [hc] at hmem
      exact List.not_mem_nil _ hmem
    rw [if_neg hne]
    exact ⟨_, rfl⟩
  obtain ⟨mv, hmv⟩ := hmean
  have key : (pansharpen_simple_mean multispectral panchromatic
        (multispectral.map Prod.fst)).map (fun b => b.2 i)
      = (multispectral.map (fun b => b.2 i)).map
          (Option.map (fun v => v + (pv - mv))) := by
    unfold pansharpen_simple_mean
    dsimp only
    rw [List.map_map, List.map_map, List.map_map]
    apply List.map_congr_left
    intro b hb
    show addQ (selectBand multispectral b.1 i)
        (subQ (panchromatic i) (bandsMean multispectral i))
      = Option.map (fun v => v + (pv - mv)) (b.2 i)
    rw [selectBand_of_nodup multispectral hnd b hb, hp, hmv]
    show addQ (b.2 i) (some (pv - mv)) = _
    rw [addQ_some_right]
  show meanPix ((pansharpen_simple_mean multispectral panchromatic
      (multispectral.map Prod.fst)).map (fun b => b.2 i)) = panchromatic i
  rw [key, hp, meanPix_shift (multispectral.map (fun b => b.2 i)) (pv - mv) mv hmv]
  congr 1
  ring

/-- Witness for C9 on the concrete raster: the mean of the sharpened bands at
the single pixel equals the reference value 3. -/
theorem C9_pansharpen_output_mean_eq_reference_witness :
    bandsMean (pansharpen_simple_mean pansharpenExample (fun _ => some 3)
      (pansharpenExample.map Prod.fst)) (0 : Fin 1)
      = (fun _ => (some 3 : Option ℚ)) (0 : Fin 1) :=
  C9_pansharpen_output_mean_eq_reference pansharpenExample (fun _ => some 3)
    (by decide) 0 3 rfl ("B4", fun _ => some 2) (List.mem_cons_self _ _) 2 rfl

/-! ## Histogram matching (`histogram_match_simple`)

```
def normalize(image, band_name):
    stats = image.reduceRegion(reducer=ee.Reducer.minMax(), ...)
    min_val = ee.Number(stats.get(f"{band_name}_min"))
    max_val = ee.Number(stats.get(f"{band_name}_max"))
    return image.select(band_name).subtract(min_val).divide(max_val.subtract(min_val))

pre_flood_normalized = normalize(pre_flood_image, band_name)
post_flood_normalized = normalize(post_flood_image, band_name)
post_stats = post_flood_image.reduceRegion(reducer=ee.Reducer.minMax(), ...)
post_min = ...; post_max = ...
matched = pre_flood_normalized.multiply(post_max.subtract(post_min)).add(post_min)
return matched.rename(f"{band_name}_matched")
```
The two images enter already reduced to the band of interest, so each is one
`Band n`; the region/scale of the `reduceRegion` statistics is the whole
grid.  A missing statistic (a band with no valid pixel) surfaces at
materialization, modelled as a fully masked band.  `ee.Image.divide` returns
0 on division by zero, exactly as `ℚ` division does, so the degenerate
`max = min` case produces values, not an error. -/

/-- The inner `normalize`: `(pixel − min) / (max − min)` per valid pixel,
masked where the pixel is masked or a statistic is missing. -/
def normalizeBand {n : ℕ} (image : Band n) : Band n :=
  fun i =>
    match bandMin image, bandMax image, image i with
    | some mn, some mx, some v => some ((v - mn) / (mx - mn))
    | _, _, _ => none

/-- `histogram_match_simple(pre, post, band_name, region, scale)`: rescale
the normalized pre-flood band onto the post-flood min/max and rename with
the `_matched` suffix.  `post_flood_normalized` is computed by the source
but never used in the returned expression (the evaluation model is lazy),
which the returned pair reflects. -/
def histogram_match_simple {n : ℕ} (pre_flood_image post_flood_image : Band n)
    (band_name : String) : String × Band n :=
  let pre_flood_normalized := normalizeBand pre_flood_image
  let post_flood_normalized := normalizeBand post_flood_image
  let matched : Band n := fun i =>
    match pre_flood_normalized i, bandMin post_flood_image, bandMax post_flood_image with
    | some v, some post_min, some post_max => some (v * (post_max - post_min) + post_min)
    | _, _, _ => none
  (band_name ++ "_matched", matched)

lemma matched_suffix_ne (band_name : String) : band_name ++ "_matched" ≠ band_name := by
  intro h
  have hlen := congrArg String.length h
  rw [String.length_append] at hlen
  have : "_matched".length = 0 := by omega
  exact absurd this (by decide)

/-- C2: with source statistics `src_min ≠ src_max` and reference statistics
available, every valid source pixel is mapped to
`(v − src_min)/(src_max − src_min)·(ref_max − ref_min) + ref_min`, masked
pixels stay masked, and the single output band carries the `_matched`
suffix, distinct from the input band's name. -/
theorem C2_histogram_match_linear_rescale {n : ℕ}
    (pre_flood_image post_flood_image : Band n) (band_name : String)
    (mn mx rmn rmx : ℚ)
    (hmn : bandMin pre_flood_image = some mn)
    (hmx : bandMax pre_flood_image = some mx)
    (hdeg : mn ≠ mx)
    (hrmn : bandMin post_flood_image = some rmn)
    (hrmx : bandMax post_flood_image = some rmx) :
    (histogram_match_simple pre_flood_image post_flood_image band_name).1
        = band_name ++ "_matched" ∧
    (histogram_match_simple pre_flood_image post_flood_image band_name).1 ≠ band_name ∧
    (∀ i : Fin n, ∀ v : ℚ, pre_flood_image i = some v →
      (histogram_match_simple pre_flood_image post_flood_image band_name).2 i
        = some ((v - mn) / (mx - mn) * (rmx - rmn) + rmn)) ∧
    (∀ i : Fin n, pre_flood_image i = none →
      (histogram_match_simple pre_flood_image post_flood_image band_name).2 i = none) := by
  refine ⟨rfl, matched_suffix_ne band_name, ?_, ?_⟩
  · intro i v hv
    show (match normalizeBand pre_flood_image i, bandMin post_flood_image,
        bandMax post_flood_image with
      | some v, some post_min, some post_max =>
          some (v * (post_max - post_min) + post_min)
      | _, _, _ => none) = _
    have hnorm : normalizeBand pre_flood_image i = some ((v - mn) / (mx - mn)) := by
      unfold normalizeBand
      rw [hmn, hmx, hv]
    rw [hnorm, hrmn, hrmx]
  · intro i hv
    show (match normalizeBand pre_flood_image i, bandMin post_flood_image,
        bandMax post_flood_image with
      | some v, some post_min, some post_max =>
          some (v * (post_max - post_min) + post_min)
      | _, _, _ => none) = _
    have hnorm : normalizeBand pre_flood_image i = none := by
      unfold normalizeBand
      rw [hmn, hmx, hv]
    rw [hnorm, hrmn, hrmx]

/-- A concrete two-pixel pre-flood band with values 1 and 5 (range [1, 5]). -/
def preExample : Band 2 := fun i => if i = 0 then some 1 else some 5

/-- A concrete two-pixel post-flood band with values 2 and 8 (range [2, 8]). -/
def postExample : Band 2 := fun i => if i = 0 then some 2 else some 8

/-- Witness for C2 on the concrete bands: source range [1, 5], reference
range [2, 8]; the source pixel with value 5 maps to (5−1)/4·6 + 2. -/
theorem C2_histogram_match_linear_rescale_witness :
    (histogram_match_simple preExample postExample "B8").1 = "B8" ++ "_matched" ∧
    (histogram_match_simple preExample postExample "B8").1 ≠ "B8" ∧
    (histogram_match_simple preExample postExample "B8").2 1
      = some (((5 : ℚ) - 1) / (5 - 1) * (8 - 2) + 2) := by
  have h := C2_histogram_match_linear_rescale preExample postExample "B8" 1 5 2 8
    (by decide) (by decide) (by decide) (by decide) (by decide)
  exact ⟨h.1, h.2.1, h.2.2.1 1 5 (by decide)⟩

/-- C3 counterexample input: a fully constant (degenerate, min = max) source
band.  The matcher still returns a matched band — every pixel becomes the
reference minimum via the divide-by-zero-gives-0 semantics — instead of
signalling any error. -/
theorem C3_degenerate_range_counterexample :
    bandMin (fun _ : Fin 2 => (some 5 : Option ℚ))
        = bandMax (fun _ : Fin 2 => (some 5 : Option ℚ)) ∧
    (histogram_match_simple (fun _ : Fin 2 => (some 5 : Option ℚ)) postExample "B8").2
        = fun _ => some 2 := by
  refine ⟨by decide, ?_⟩
  funext i
  show (match normalizeBand (fun _ : Fin 2 => (some 5 : Option ℚ)) i, bandMin postExample,
      bandMax postExample with
    | some v, some post_min, some post_max => some (v * (post_max - post_min) + post_min)
    | _, _, _ => none) = some 2
  have h1 : normalizeBand (fun _ : Fin 2 => (some 5 : Option ℚ)) i = some 0 := by
    unfold normalizeBand
    have hmn : bandMin (fun _ : Fin 2 => (some 5 : Option ℚ)) = some 5 := by decide
    have hmx : bandMax (fun _ : Fin 2 => (some 5 : Option ℚ)) = some 5 := by decide
    rw [hmn, hmx]
    show (some (((5 : ℚ) - 5) / ((5 : ℚ) - 5)) : Option ℚ) = some 0
    norm_num
  have h2 : bandMin postExample = some 2 := by decide
  have h3 : bandMax postExample = some 8 := by decide
  rw [h1, h2, h3]
  show (some ((0 : ℚ) * (8 - 2) + 2) : Option ℚ) = some 2
  norm_num

/-- C3 amended: on a degenerate source band (src_min = src_max) the matcher
does not signal an error; the division by zero yields 0 (the Earth Engine
`divide` contract, matching `ℚ`), so a matched band is still produced, with
the `_matched` name and every valid pixel equal to the reference minimum. -/
theorem C3_degenerate_range_amended {n : ℕ} (pre post : Band n) (band_name : String)
    (m rmn rmx : ℚ)
    (hmn : bandMin pre = some m) (hmx : bandMax pre = some m)
    (hrmn : bandMin post = some rmn) (hrmx : bandMax post = some rmx) :
    (histogram_match_simple pre post band_name).1 = band_name ++ "_matched" ∧
    ∀ i : Fin n, ∀ v : ℚ, pre i = some v →
      (histogram_match_simple pre post band_name).2 i = some rmn := by
  refine ⟨rfl, ?_⟩
  intro i v hv
  show (match normalizeBand pre i, bandMin post, bandMax post with
    | some v, some post_min, some post_max => some (v * (post_max - post_min) + post_min)
    | _, _, _ => none) = some rmn
  have h1 : normalizeBand pre i = some ((v - m) / (m - m)) := by
    unfold normalizeBand
    rw [hmn, hmx, hv]
  rw [h1, hrmn, hrmx]
  show some ((v - m) / (m - m) * (rmx - rmn) + rmn) = some rmn
  rw [sub_self, div_zero, zero_mul, zero_add]

/-- Witness for the amended C3: the constant band 5 matched against the
[2, 8] reference band produces the reference minimum 2 at a pixel. -/
theorem C3_degenerate_range_amended_witness :
    (histogram_match_simple (fun _ : Fin 2 => (some 5 : Option ℚ)) postExample "B8").1
        = "B8" ++ "_matched" ∧
    (histogram_match_simple (fun _ : Fin 2 => (some 5 : Option ℚ)) postExample "B8").2 0
        = some 2 := by
  have h := C3_degenerate_range_amended (fun _ : Fin 2 => (some 5 : Option ℚ))
    postExample "B8" 5 2 8 (by decide) (by decide) (by decide) (by decide)
  exact ⟨h.1, h.2 0 5 rfl⟩

/-- A second reference band with the pixel values of `postExample` swapped:
different image, identical min/max statistics. -/
def postExample2 : Band 2 := fun i => if i = 0 then some 8 else some 2

/-- C10: the matcher's result depends on the reference image only through
its min/max statistics over the region — two reference images with equal
band minimum and maximum give identical matched outputs (the normalized
reference band the source computes is dead code). -/
theorem C10_reference_used_only_via_stats {n : ℕ} (pre post1 post2 : Band n)
    (band_name : String)
    (hmin : bandMin post1 = bandMin post2) (hmax : bandMax post1 = bandMax post2) :
    histogram_match_simple pre post1 band_name
      = histogram_match_simple pre post2 band_name := by
  unfold histogram_match_simple
  dsimp only
  simp only [hmin, hmax]

/-- Witness for C10: two distinct reference bands with equal statistics give
the same matched output. -/
theorem C10_reference_used_only_via_stats_witness :
    histogram_match_simple preExample postExample "B8"
      = histogram_match_simple preExample postExample2 "B8" :=
  C10_reference_used_only_via_stats preExample postExample postExample2 "B8"
    (by decide) (by decide)

/-! ## Epoch composites (`main`)

```
PRE_FLOOD_RANGE = ('2024-08-25', '2024-09-25')
POST_FLOOD_RANGE = ('2024-09-26', '2024-11-25')
...
pre_flood = sentinel2.filterDate(PRE_FLOOD_RANGE[0], PRE_FLOOD_RANGE[1]).map(mask_sentinel2_clouds)
post_flood = sentinel2.filterDate(PRE_FLOOD_RANGE[0], POST_FLOOD_RANGE[1]).map(mask_sentinel2_clouds)
...
post_flood_median = post_flood.median()
```
Acquisition dates are day numbers counted from 2024-08-25 (day 0), so
2024-09-25 is day 31, 2024-09-26 day 32 and 2024-11-25 day 92.
`filterDate` keeps dates in the half-open interval [start, end), and the
median reducer takes, per pixel, the median of the valid observation values
(mean of the two central values on an even count; the facts below only use
odd counts, where every median convention agrees). -/

/-- The pre-event window, as day numbers: 2024-08-25 to 2024-09-25. -/
def PRE_FLOOD_RANGE : ℕ × ℕ := (0, 31)

/-- The post-event window, as day numbers: 2024-09-26 to 2024-11-25. -/
def POST_FLOOD_RANGE : ℕ × ℕ := (32, 92)

/-- One Sentinel-2 observation: acquisition date, SCL classification band
and one spectral band over the shared grid. -/
structure S2Obs (n : ℕ) where
  date : ℕ
  scl : Fin n → ℕ
  band : Band n

/-- `mask_sentinel2_clouds(image)`: mask pixels whose SCL class is cloud
shadow (3), cloud (8, 9), cirrus (10) or snow/ice (11). -/
def mask_sentinel2_clouds {n : ℕ} (o : S2Obs n) : S2Obs n :=
  { o with band := fun i =>
      if o.scl i = 3 ∨ o.scl i = 8 ∨ o.scl i = 9 ∨ o.scl i = 10 ∨ o.scl i = 11
      then none else o.band i }

/-- `collection.filterDate(lo, hi)`: observations with `lo ≤ date < hi`. -/
def filterDate {n : ℕ} (coll : List (S2Obs n)) (lo hi : ℕ) : List (S2Obs n) :=
  coll.filter (fun o => decide (lo ≤ o.date) && decide (o.date < hi))

/-- Insert a value into an already sorted list of rationals. -/
def insertSorted (x : ℚ) : List ℚ → List ℚ
  | [] => [x]
  | y :: ys => if x ≤ y then x :: y :: ys else y :: insertSorted x ys

/-- Insertion sort on rationals (ascending). -/
def sortQ (l : List ℚ) : List ℚ := l.foldr insertSorted []

/-- Median of a list of values: the central element of the sorted list for
an odd count, the mean of the two central elements for an even count,
nothing for an empty list. -/
def medianOfList (l : List ℚ) : Option ℚ :=
  if (sortQ l).length = 0 then none
  else if (sortQ l).length % 2 = 1 then
    some ((sortQ l).getD ((sortQ l).length / 2) 0)
  else
    some (((sortQ l).getD ((sortQ l).length / 2 - 1) 0
      + (sortQ l).getD ((sortQ l).length / 2) 0) / 2)

/-- `collection.median()`: per-pixel median over the valid (unmasked)
observation values; masked where no observation is valid. -/
def medianComposite {n : ℕ} (coll : List (S2Obs n)) : Band n :=
  fun i => medianOfList (coll.filterMap (fun o => o.band i))

/-- The post-flood median composite exactly as `main` builds it:
`sentinel2.filterDate(PRE_FLOOD_RANGE[0], POST_FLOOD_RANGE[1])`, cloud
masked, then the median — note the start date taken from the PRE-event
range. -/
def post_flood_median_code {n : ℕ} (sentinel2 : List (S2Obs n)) : Band n :=
  medianComposite
    ((filterDate sentinel2 PRE_FLOOD_RANGE.1 POST_FLOOD_RANGE.2).map mask_sentinel2_clouds)

/-- The post-event composite following the spec's wording: the median of the
cloud-masked observations whose dates lie in the post-event window only. -/
def post_flood_median_window {n : ℕ} (sentinel2 : List (S2Obs n)) : Band n :=
  medianComposite
    ((filterDate sentinel2 POST_FLOOD_RANGE.1 POST_FLOOD_RANGE.2).map mask_sentinel2_clouds)

/-- Three clear-sky observations: two in the pre-event window (days 5, 6;
value 0) and one in the post-event window (day 40; value 10). -/
def c1Collection : List (S2Obs 1) :=
  [⟨5, fun _ => 1, fun _ => some 0⟩,
   ⟨6, fun _ => 1, fun _ => some 0⟩,
   ⟨40, fun _ => 1, fun _ => some 10⟩]

/-- C1: the source's post-event composite is the median over ALL
observations from the pre-event start onward, so pre-event observations
contribute: on `c1Collection` the code's composite pixel is 0 (median of
{0, 0, 10}), while the median over the post-event window alone is 10. -/
theorem C1_post_composite_includes_pre_event :
    post_flood_median_code c1Collection 0 = some 0 ∧
    post_flood_median_window c1Collection 0 = some 10 ∧
    post_flood_median_code c1Collection 0 ≠ post_flood_median_window c1Collection 0 := by
  refine ⟨by decide, by decide, by decide⟩

end DANA
